import Mathlib

/-!
Shallow embedding of the social-media REST backend (Express + Prisma).

The relational database is modelled as lists of rows; each route handler
becomes a pure function from inputs and a `DB` to a response and a new `DB`.
Handlers that cannot fail (feed, comment listing, search) return their payload
directly; the others return a `Resp` that is either a success envelope
(`successResponse`: data + message) or an `ApiError` (message + HTTP status,
as produced by `errorResponse`).
-/

/-- A row of the `User` table (`prisma.user`). -/
structure UserRow where
  id : Nat
  username : String
  name : String
  bio : Option String
  avatarUrl : Option String
  email : String
  phone : Option String
deriving Repr, DecidableEq

/-- A row of the `Post` table, with the two denormalized counters. -/
structure PostRow where
  id : Nat
  userId : Nat
  imageUrl : String
  caption : Option String
  createdAt : Nat
  likeCount : Int
  commentCount : Int
deriving Repr, DecidableEq

/-- A row of the `Like` table: unique pair (userId, postId). -/
structure LikeRow where
  userId : Nat
  postId : Nat
  createdAt : Nat
deriving Repr, DecidableEq

/-- A row of the `Comment` table. -/
structure CommentRow where
  id : Nat
  postId : Nat
  userId : Nat
  content : String
  createdAt : Nat
deriving Repr, DecidableEq

/-- A row of the `Follow` table: unique ordered pair (followerId, followingId). -/
structure FollowRow where
  followerId : Nat
  followingId : Nat
  createdAt : Nat
deriving Repr, DecidableEq

/-- The whole database.  `nextCommentId` models the autoincrement id sequence
and `now` the timestamp assigned to freshly created rows. -/
structure DB where
  users : List UserRow
  posts : List PostRow
  likes : List LikeRow
  comments : List CommentRow
  follows : List FollowRow
  nextCommentId : Nat
  now : Nat
deriving Repr, DecidableEq

/-- `errorResponse(res, message, status)` from `src/utils/response.js`. -/
structure ApiError where
  message : String
  status : Nat
deriving Repr, DecidableEq

/-- A handler outcome: `successResponse` (data + message) or `errorResponse`. -/
inductive Resp (α : Type) where
  | ok (data : α) (message : String)
  | err (e : ApiError)
deriving Repr, DecidableEq

/-- `prisma.post.findUnique({ where: { id: postId } })`. -/
def findPost (db : DB) (postId : Nat) : Option PostRow :=
  db.posts.find? (fun p => p.id == postId)

/-- The unique key `userId_postId` of the `Like` table. -/
def likeKeyMatch (userId postId : Nat) (l : LikeRow) : Bool :=
  l.userId == userId && l.postId == postId

/-- `prisma.like.findUnique({ where: { userId_postId: { userId, postId } } })`. -/
def findLike (db : DB) (userId postId : Nat) : Option LikeRow :=
  db.likes.find? (likeKeyMatch userId postId)

/-- `prisma.user.findUnique({ where: { username } })`
(helper `getUserByUsernameOr404` in `src/routes/follow.js`). -/
def findUserByUsername (db : DB) (username : String) : Option UserRow :=
  db.users.find? (fun u => u.username == username)

/-- The unique key `followerId_followingId` of the `Follow` table. -/
def followKeyMatch (followerId followingId : Nat) (f : FollowRow) : Bool :=
  f.followerId == followerId && f.followingId == followingId

/-- Payload of the like/unlike endpoints: `{ liked, likeCount }`. -/
structure LikePayload where
  liked : Bool
  likeCount : Int
deriving Repr, DecidableEq

/-- `POST /posts/:id/like` (`src/routes/likes.js`).  Looks the post up,
returns 404 when absent; when the edge already exists answers
"Already liked" with the current counter and no state change; otherwise,
inside one transaction, inserts the edge and increments the post's
`likeCount` by 1, answering with the updated counter. -/
def likePost (userId postId : Nat) (db : DB) : Resp LikePayload × DB :=
  match findPost db postId with
  | none => (.err ⟨"Post not found", 404⟩, db)
  | some post =>
    match findLike db userId postId with
    | some _ => (.ok ⟨true, post.likeCount⟩ "Already liked", db)
    | none =>
      let db' : DB := { db with
        likes := db.likes ++ [⟨userId, postId, db.now⟩]
        posts := db.posts.map (fun q =>
          if q.id == postId then { q with likeCount := q.likeCount + 1 } else q) }
      (.ok ⟨true, post.likeCount + 1⟩ "Liked", db')

/-- `DELETE /posts/:id/like` (`src/routes/likes.js`).  404 when the post is
absent; "Already unliked" with no state change when the edge is absent;
otherwise deletes the edge and, only when the pre-read `likeCount` was
positive, decrements the counter (`post.likeCount > 0 ? { decrement: 1 } :
undefined`). -/
def unlikePost (userId postId : Nat) (db : DB) : Resp LikePayload × DB :=
  match findPost db postId with
  | none => (.err ⟨"Post not found", 404⟩, db)
  | some post =>
    match findLike db userId postId with
    | none => (.ok ⟨false, post.likeCount⟩ "Already unliked", db)
    | some _ =>
      let db' : DB := { db with
        likes := db.likes.eraseP (likeKeyMatch userId postId)
        posts := db.posts.map (fun q =>
          if q.id == postId then
            { q with likeCount :=
                if post.likeCount > 0 then q.likeCount - 1 else q.likeCount }
          else q) }
      (.ok ⟨false, if post.likeCount > 0 then post.likeCount - 1 else post.likeCount⟩
        "Unliked", db')

/-- `tx.comment.count({ where: { postId } })`. -/
def countCommentRows (comments : List CommentRow) (postId : Nat) : Nat :=
  comments.countP (fun c => c.postId == postId)

/-- `safeSetPostCommentCount(tx, postId, count)` from `src/routes/comments.js`:
writes `commentCount := count` on the post, swallowing any failure of this
write (`counterOk = false` models the write failing, e.g. the column being
absent), so the surrounding operation never fails because of it. -/
def safeSetPostCommentCount (posts : List PostRow) (postId : Nat) (count : Nat)
    (counterOk : Bool) : List PostRow :=
  if counterOk then
    posts.map (fun q =>
      if q.id == postId then { q with commentCount := (count : Int) } else q)
  else posts

/-- Payload of `POST /posts/:id/comments`: the created comment
(`content` is answered as `text`). -/
structure CommentPayload where
  id : Nat
  text : String
deriving Repr, DecidableEq

/-- `POST /posts/:id/comments` (`src/routes/comments.js`).  Verifies the post
exists (404 otherwise), then in one transaction inserts the comment row,
recounts the comments of the post and stores the exact count through
`safeSetPostCommentCount`. -/
def createComment (userId postId : Nat) (text : String) (counterOk : Bool)
    (db : DB) : Resp CommentPayload × DB :=
  match findPost db postId with
  | none => (.err ⟨"Post not found", 404⟩, db)
  | some _ =>
    let c : CommentRow := ⟨db.nextCommentId, postId, userId, text, db.now⟩
    let comments' := db.comments ++ [c]
    let db' : DB := { db with
      comments := comments'
      posts := safeSetPostCommentCount db.posts postId
        (countCommentRows comments' postId) counterOk
      nextCommentId := db.nextCommentId + 1 }
    (.ok ⟨c.id, c.content⟩ "Comment created", db')

/-- Payload of `DELETE /comments/:id`: `{ deleted: true }`. -/
structure DeletedPayload where
  deleted : Bool
deriving Repr, DecidableEq

/-- `DELETE /comments/:id` (`src/routes/comments.js`).  404 when the comment is
absent, 403 when the actor does not own it; otherwise in one transaction
deletes the row, recounts the comments of the parent post and stores the
exact count through `safeSetPostCommentCount`. -/
def deleteComment (userId commentId : Nat) (counterOk : Bool) (db : DB) :
    Resp DeletedPayload × DB :=
  match db.comments.find? (fun c => c.id == commentId) with
  | none => (.err ⟨"Comment not found", 404⟩, db)
  | some comment =>
    if comment.userId != userId then (.err ⟨"Forbidden", 403⟩, db)
    else
      let comments' := db.comments.eraseP (fun c => c.id == commentId)
      let db' : DB := { db with
        comments := comments'
        posts := safeSetPostCommentCount db.posts comment.postId
          (countCommentRows comments' comment.postId) counterOk }
      (.ok ⟨true⟩ "Comment deleted", db')

/-- Payload of the follow/unfollow endpoints: `{ following }`. -/
structure FollowPayload where
  following : Bool
deriving Repr, DecidableEq

/-- `POST /follow/:username` (`src/routes/follow.js`).  404 when the target
username is unknown, 400 "You cannot follow yourself" when the target is the
actor; otherwise `prisma.follow.upsert` (insert the edge when absent, no-op
update when present) and answer `{ following: true }`. -/
def followUser (followerId : Nat) (username : String) (db : DB) :
    Resp FollowPayload × DB :=
  match findUserByUsername db username with
  | none => (.err ⟨"User not found", 404⟩, db)
  | some target =>
    if target.id == followerId then
      (.err ⟨"You cannot follow yourself", 400⟩, db)
    else
      let follows' :=
        if db.follows.any (followKeyMatch followerId target.id) then db.follows
        else db.follows ++ [⟨followerId, target.id, db.now⟩]
      (.ok ⟨true⟩ "Now following", { db with follows := follows' })

/-- `DELETE /follow/:username` (`src/routes/follow.js`).  404 when the target
username is unknown; otherwise deletes the edge when present
(`.catch(() => null)` makes a missing edge a no-op) and always answers
`{ following: false }`. -/
def unfollowUser (followerId : Nat) (username : String) (db : DB) :
    Resp FollowPayload × DB :=
  match findUserByUsername db username with
  | none => (.err ⟨"User not found", 404⟩, db)
  | some target =>
    (.ok ⟨false⟩ "Unfollowed",
      { db with follows := db.follows.eraseP (followKeyMatch followerId target.id) })

/-- The pagination block `{ page, limit, total, totalPages }` every listing
endpoint answers with (`totalPages = Math.ceil(total / limit)`). -/
structure Pagination where
  page : Nat
  limit : Nat
  total : Nat
  totalPages : Nat
deriving Repr, DecidableEq

/-- The shared listing pattern: `skip: (page - 1) * limit, take: limit`
plus a separate `count` query, with `totalPages = Math.ceil(total / limit)`
(for `limit ≥ 1` the natural-number form `(total + limit - 1) / limit`). -/
def paginate {α : Type} (page limit : Nat) (xs : List α) : List α × Pagination :=
  ((xs.drop ((page - 1) * limit)).take limit,
    ⟨page, limit, xs.length, (xs.length + limit - 1) / limit⟩)

/-- `orderBy: { createdAt: "desc" }` on posts. -/
def postsByCreatedAtDesc (ps : List PostRow) : List PostRow :=
  ps.insertionSort (fun a b => b.createdAt ≤ a.createdAt)

/-- `orderBy: { createdAt: "desc" }` on like rows. -/
def likesByCreatedAtDesc (ls : List LikeRow) : List LikeRow :=
  ls.insertionSort (fun a b => b.createdAt ≤ a.createdAt)

/-- `orderBy: { createdAt: "desc" }` on follow rows. -/
def followsByCreatedAtDesc (fs : List FollowRow) : List FollowRow :=
  fs.insertionSort (fun a b => b.createdAt ≤ a.createdAt)

/-- `orderBy: [{ username: "asc" }]` on users (search endpoint). -/
def usersByUsernameAsc (us : List UserRow) : List UserRow :=
  us.insertionSort (fun a b => a.username ≤ b.username)

/-- `_count: { select: { likes: true } }` of a post. -/
def countLikeRows (likes : List LikeRow) (postId : Nat) : Nat :=
  likes.countP (fun l => l.postId == postId)

/-- One feed item as shaped by `toPostSummary` in `src/routes/feed.js`:
counters come from `_count`, `likedByMe` from the viewer-filtered include. -/
structure FeedItem where
  id : Nat
  imageUrl : String
  caption : Option String
  createdAt : Nat
  authorId : Nat
  likeCount : Nat
  commentCount : Nat
  likedByMe : Bool
deriving Repr, DecidableEq

/-- Payload of `GET /feed`: `{ items, pagination }`. -/
structure FeedPayload where
  items : List FeedItem
  pagination : Pagination
deriving Repr, DecidableEq

/-- The candidate author ids of the feed: `[meId, ...following]`. -/
def feedCandidateIds (meId : Nat) (db : DB) : List Nat :=
  meId :: (db.follows.filter (fun f => f.followerId == meId)).map
    (fun f => f.followingId)

/-- `GET /feed` (`src/routes/feed.js`): posts whose `userId` is the viewer or
someone the viewer follows, ordered by `createdAt` descending, paginated,
each annotated with `likedByMe`; the total counts the whole candidate set.
The handler has no failure path (it never 404s). -/
def getFeed (meId page limit : Nat) (db : DB) : FeedPayload :=
  let ids := feedCandidateIds meId db
  let candidates := db.posts.filter (fun p => ids.contains p.userId)
  let (pagePosts, pg) := paginate page limit (postsByCreatedAtDesc candidates)
  let items := pagePosts.map (fun p =>
    { id := p.id
      imageUrl := p.imageUrl
      caption := p.caption
      createdAt := p.createdAt
      authorId := p.userId
      likeCount := countLikeRows db.likes p.id
      commentCount := countCommentRows db.comments p.id
      likedByMe := db.likes.any (fun l => l.userId == meId && l.postId == p.id) })
  ⟨items, pg⟩

/-- A listed user as shaped by `userSummary` in `src/routes/follow.js`. -/
structure UserSummary where
  id : Nat
  username : String
  name : String
  avatarUrl : Option String
  isFollowedByMe : Bool
deriving Repr, DecidableEq

/-- Payload of the user-listing endpoints: `{ users, pagination }`. -/
structure UsersPayload where
  users : List UserSummary
  pagination : Pagination
deriving Repr, DecidableEq

/-- `isFollowedByMe` via `buildViewerFollowMap`: does the viewer (when
present) hold a follow edge towards `uid`? -/
def isFollowedByViewer (viewerId : Option Nat) (uid : Nat) (db : DB) : Bool :=
  match viewerId with
  | some v => db.follows.any (followKeyMatch v uid)
  | none => false

/-- Shape one user row for a listing page. -/
def toUserSummary (viewerId : Option Nat) (db : DB) (u : UserRow) : UserSummary :=
  ⟨u.id, u.username, u.name, u.avatarUrl, isFollowedByViewer viewerId u.id db⟩

/-- `GET /users/:username/followers` (`src/routes/follow.js`).  404 when the
username is unknown; otherwise the follow rows pointing at the owner, newest
edge first, paginated, each resolved to its follower's user summary. -/
def listFollowers (viewerId : Option Nat) (username : String) (page limit : Nat)
    (db : DB) : Resp UsersPayload :=
  match findUserByUsername db username with
  | none => .err ⟨"User not found", 404⟩
  | some owner =>
    let rows := followsByCreatedAtDesc
      (db.follows.filter (fun f => f.followingId == owner.id))
    let (pageRows, pg) := paginate page limit rows
    let users := pageRows.filterMap (fun r =>
      (db.users.find? (fun u => u.id == r.followerId)).map
        (toUserSummary viewerId db))
    .ok ⟨users, pg⟩ "OK"

/-- `GET /users/:username/following` (`src/routes/follow.js`).  Same shape as
`listFollowers` with the edge direction reversed. -/
def listFollowing (viewerId : Option Nat) (username : String) (page limit : Nat)
    (db : DB) : Resp UsersPayload :=
  match findUserByUsername db username with
  | none => .err ⟨"User not found", 404⟩
  | some owner =>
    let rows := followsByCreatedAtDesc
      (db.follows.filter (fun f => f.followerId == owner.id))
    let (pageRows, pg) := paginate page limit rows
    let users := pageRows.filterMap (fun r =>
      (db.users.find? (fun u => u.id == r.followingId)).map
        (toUserSummary viewerId db))
    .ok ⟨users, pg⟩ "OK"

/-- A liker entry of `GET /posts/:id/likes`: user summary plus the
viewer-relative flags `isFollowedByMe`, `isMe`, `followsMe`. -/
structure LikerSummary where
  id : Nat
  username : String
  name : String
  avatarUrl : Option String
  isFollowedByMe : Bool
  isMe : Bool
  followsMe : Bool
deriving Repr, DecidableEq

/-- Payload of `GET /posts/:id/likes`. -/
structure LikersPayload where
  users : List LikerSummary
  pagination : Pagination
deriving Repr, DecidableEq

/-- `GET /posts/:id/likes` (`src/routes/likes.js`).  404 when the post is
absent; otherwise the like rows of the post, newest first, paginated, each
resolved to its user with the three viewer flags (`false` without viewer). -/
def listPostLikers (viewerId : Option Nat) (postId page limit : Nat) (db : DB) :
    Resp LikersPayload :=
  match findPost db postId with
  | none => .err ⟨"Post not found", 404⟩
  | some _ =>
    let rows := likesByCreatedAtDesc (db.likes.filter (fun l => l.postId == postId))
    let (pageRows, pg) := paginate page limit rows
    let users := pageRows.filterMap (fun r =>
      (db.users.find? (fun u => u.id == r.userId)).map (fun u =>
        ({ id := u.id
           username := u.username
           name := u.name
           avatarUrl := u.avatarUrl
           isFollowedByMe := isFollowedByViewer viewerId u.id db
           isMe := match viewerId with
             | some v => u.id == v
             | none => false
           followsMe := match viewerId with
             | some v => db.follows.any (followKeyMatch u.id v)
             | none => false } : LikerSummary)))
    .ok ⟨users, pg⟩ "OK"

/-- A post as shaped by `postSummary` in `src/routes/users.js`. -/
structure PostSummary where
  id : Nat
  imageUrl : String
  caption : Option String
  createdAt : Nat
  authorId : Nat
  likeCount : Nat
  commentCount : Nat
  likedByMe : Bool
deriving Repr, DecidableEq

/-- Payload of `GET /users/:username/posts`. -/
structure PostsPayload where
  posts : List PostSummary
  pagination : Pagination
deriving Repr, DecidableEq

/-- `GET /users/:username/posts` (`src/routes/users.js`).  404 when the
username is unknown; otherwise the user's posts, newest first, paginated. -/
def listUserPosts (viewerId : Option Nat) (username : String) (page limit : Nat)
    (db : DB) : Resp PostsPayload :=
  match findUserByUsername db username with
  | none => .err ⟨"User not found", 404⟩
  | some owner =>
    let rows := postsByCreatedAtDesc (db.posts.filter (fun p => p.userId == owner.id))
    let (pageRows, pg) := paginate page limit rows
    let posts := pageRows.map (fun p =>
      ({ id := p.id
         imageUrl := p.imageUrl
         caption := p.caption
         createdAt := p.createdAt
         authorId := p.userId
         likeCount := countLikeRows db.likes p.id
         commentCount := countCommentRows db.comments p.id
         likedByMe := match viewerId with
           | some v => db.likes.any (fun l => l.userId == v && l.postId == p.id)
           | none => false } : PostSummary))
    .ok ⟨posts, pg⟩ "OK"

/-- A listed comment of `GET /posts/:id/comments`. -/
structure CommentListItem where
  id : Nat
  text : String
  createdAt : Nat
  authorId : Nat
deriving Repr, DecidableEq

/-- Payload of `GET /posts/:id/comments`. -/
structure CommentsPayload where
  comments : List CommentListItem
  pagination : Pagination
deriving Repr, DecidableEq

/-- `orderBy: { createdAt: "desc" }` on comment rows. -/
def commentsByCreatedAtDesc (cs : List CommentRow) : List CommentRow :=
  cs.insertionSort (fun a b => b.createdAt ≤ a.createdAt)

/-- `GET /posts/:id/comments` (`src/routes/comments.js`).  No existence check
on the post: the comments with that `postId`, newest first, paginated. -/
def listPostComments (postId page limit : Nat) (db : DB) : CommentsPayload :=
  let rows := commentsByCreatedAtDesc
    (db.comments.filter (fun c => c.postId == postId))
  let (pageRows, pg) := paginate page limit rows
  ⟨pageRows.map (fun c => ⟨c.id, c.content, c.createdAt, c.userId⟩), pg⟩

/-- Is `needle` an initial segment of `hay`? -/
def charsStartWith : List Char → List Char → Bool
  | [], _ => true
  | _ :: _, [] => false
  | a :: as, b :: bs => a == b && charsStartWith as bs

/-- Is `needle` a contiguous segment of `hay`?  (The SQL `contains`.) -/
def charsContain : List Char → List Char → Bool
  | [], _ => true
  | _ :: _, [] => false
  | needle, b :: bs => charsStartWith needle (b :: bs) || charsContain needle bs

/-- `{ contains: q, mode: "insensitive" }`: case-insensitive substring. -/
def strContainsCI (hay q : String) : Bool :=
  charsContain (q.toList.map Char.toLower) (hay.toList.map Char.toLower)

/-- The regex `replace(/\s+/g, " ")`: collapse each whitespace run to one
space.  `prevWs` remembers whether the previous character was whitespace. -/
def collapseWsAux : Bool → List Char → List Char
  | _, [] => []
  | prevWs, c :: cs =>
    if c.isWhitespace then
      (if prevWs then [] else [' ']) ++ collapseWsAux true cs
    else c :: collapseWsAux false cs

/-- The `trim()` step: strip leading and trailing whitespace. -/
def trimChars (cs : List Char) : List Char :=
  ((cs.dropWhile Char.isWhitespace).reverse.dropWhile Char.isWhitespace).reverse

/-- The search handler's input normalization: trim, then collapse inner
whitespace runs. -/
def normalizeQuery (s : String) : String :=
  String.mk (collapseWsAux false (trimChars s.toList))

/-- The search `where` clause: username OR display name contains `q`
case-insensitively. -/
def searchMatch (q : String) (u : UserRow) : Bool :=
  strContainsCI u.username q || strContainsCI u.name q

/-- A search result entry: user summary plus `isFollowedByMe`. -/
structure SearchEntry where
  id : Nat
  username : String
  name : String
  avatarUrl : Option String
  isFollowedByMe : Bool
deriving Repr, DecidableEq

/-- Payload of `GET /users/search`. -/
structure SearchPayload where
  users : List SearchEntry
  pagination : Pagination
deriving Repr, DecidableEq

/-- `GET /users/search` (`src/routes/users.js`).  Normalizes `q`, clamps
`limit` to 50, filters users whose username or name contains `q`
case-insensitively, orders by username ascending and paginates.  The handler
never answers 404: an empty match set is a success with zero items
(the code comment says exactly that). -/
def searchUsers (viewerId : Option Nat) (q : String) (page limit : Nat)
    (db : DB) : Resp SearchPayload :=
  let nq := normalizeQuery q
  let lim := min limit 50
  let rows := usersByUsernameAsc (db.users.filter (searchMatch nq))
  let (pageRows, pg) := paginate page lim rows
  .ok ⟨pageRows.map (fun u =>
      ⟨u.id, u.username, u.name, u.avatarUrl, isFollowedByViewer viewerId u.id db⟩),
    pg⟩ "OK"

/-- The four profile counts of `GET /users/:username`. -/
structure ProfileCounts where
  post : Nat
  followers : Nat
  following : Nat
  likes : Nat
deriving Repr, DecidableEq

/-- Payload of `GET /users/:username`: the stored profile fields —
`email` and `phone` included — plus counts and viewer flags. -/
structure ProfilePayload where
  id : Nat
  name : String
  username : String
  bio : Option String
  avatarUrl : Option String
  email : String
  phone : Option String
  counts : ProfileCounts
  isFollowing : Bool
  isMe : Bool
deriving Repr, DecidableEq

/-- `prisma.like.count({ where: { post: { userId } } })`: likes received on
all posts owned by `ownerId`. -/
def countLikesReceived (db : DB) (ownerId : Nat) : Nat :=
  db.likes.countP (fun l =>
    (db.posts.find? (fun p => p.id == l.postId)).any (fun p => p.userId == ownerId))

/-- `GET /users/:username` (`src/routes/users.js`).  404 when the username is
unknown; otherwise the public profile: stored fields (`email`, `phone`
selected verbatim for every viewer, anonymous included), the four counts,
`isFollowing` (viewer holds an edge, self excluded) and `isMe`. -/
def getUserProfile (viewerId : Option Nat) (username : String) (db : DB) :
    Resp ProfilePayload :=
  match findUserByUsername db username with
  | none => .err ⟨"User not found", 404⟩
  | some user =>
    .ok
      { id := user.id
        name := user.name
        username := user.username
        bio := user.bio
        avatarUrl := user.avatarUrl
        email := user.email
        phone := user.phone
        counts :=
          { post := db.posts.countP (fun p => p.userId == user.id)
            followers := db.follows.countP (fun f => f.followingId == user.id)
            following := db.follows.countP (fun f => f.followerId == user.id)
            likes := countLikesReceived db user.id }
        isFollowing := match viewerId with
          | some v =>
            if v != user.id then db.follows.any (followKeyMatch v user.id)
            else false
          | none => false
        isMe := viewerId == some user.id } "OK"

/-- One edge-mutating request: like, unlike, comment creation or comment
deletion (by any user, on any post/comment). -/
inductive SocialOp where
  | doLike (userId postId : Nat)
  | doUnlike (userId postId : Nat)
  | doComment (userId postId : Nat) (text : String)
  | doUncomment (userId commentId : Nat)
deriving Repr, DecidableEq

/-- Run one request against the database (normal environment: the comment
counter column exists, so its write succeeds). -/
def applyOp (db : DB) (op : SocialOp) : DB :=
  match op with
  | .doLike u p => (likePost u p db).2
  | .doUnlike u p => (unlikePost u p db).2
  | .doComment u p t => (createComment u p t true db).2
  | .doUncomment u c => (deleteComment u c true db).2

/-- Run a sequence of requests. -/
def applyOps (db : DB) (ops : List SocialOp) : DB :=
  ops.foldl applyOp db

/-- The counter-consistency invariant: every post's stored `likeCount` and
`commentCount` equal the number of `Like` / `Comment` rows referencing it. -/
def CountersConsistent (db : DB) : Prop :=
  ∀ p ∈ db.posts,
    p.likeCount = (countLikeRows db.likes p.id : Int) ∧
    p.commentCount = (countCommentRows db.comments p.id : Int)

instance : DecidablePred CountersConsistent := fun db => by
  unfold CountersConsistent
  infer_instance

/-- `eraseP` removes exactly the element `find?` returns: counting with any
predicate `Q` drops by one when that element satisfies `Q`, else stays. -/
theorem countP_eraseP_of_find? {α : Type} (P Q : α → Bool) (l : List α) (a : α)
    (h : l.find? P = some a) :
    (l.eraseP P).countP Q + (if Q a then 1 else 0) = l.countP Q := by
  induction l with
  | nil => simp at h
  | cons x xs ih =>
    by_cases hx : P x
    · rw [List.find?_cons_of_pos _ hx] at h
      injection h with h
      subst h
      simp [List.eraseP_cons_of_pos hx, List.countP_cons]
    · rw [List.find?_cons_of_neg _ (by simpa using hx)] at h
      rw [List.eraseP_cons_of_neg (by simpa using hx)]
      simp only [List.countP_cons]
      have h2 := ih h
      omega

/-- Step preservation: `POST /posts/:id/like` keeps the counters consistent. -/
theorem countersConsistent_likePost (u pid : Nat) (db : DB)
    (h : CountersConsistent db) : CountersConsistent (likePost u pid db).2 := by
  unfold likePost
  cases hfp : findPost db pid with
  | none => exact h
  | some post =>
    cases hfl : findLike db u pid with
    | some l => exact h
    | none =>
      intro q hq
      simp only [List.mem_map] at hq
      obtain ⟨r, hr, rfl⟩ := hq
      obtain ⟨h1, h2⟩ := h r hr
      by_cases hid : r.id = pid
      · subst hid
        simp only [beq_self_eq_true, if_true]
        refine ⟨?_, by simpa using h2⟩
        simp only [countLikeRows, List.countP_append, List.countP_cons,
          List.countP_nil, beq_self_eq_true, if_true] at h1 ⊢
        simp only [h1]
        push_cast
        ring
      · have hb : (r.id == pid) = false := by simpa using hid
        simp only [hb, Bool.false_eq_true, if_false]
        refine ⟨?_, h2⟩
        simp only [countLikeRows, List.countP_append, List.countP_cons,
          List.countP_nil] at h1 ⊢
        have hb2 : (pid == r.id) = false := by
          simp
          omega
        simp [hb2, h1]

/-- Step preservation: `DELETE /posts/:id/like` keeps the counters
consistent: when the edge exists the invariant makes the stored counter
positive, so the guarded decrement fires and tracks the erased row. -/
theorem countersConsistent_unlikePost (u pid : Nat) (db : DB)
    (h : CountersConsistent db) : CountersConsistent (unlikePost u pid db).2 := by
  unfold unlikePost
  cases hfp : findPost db pid with
  | none => exact h
  | some post =>
    cases hfl : findLike db u pid with
    | none => exact h
    | some lrow =>
      have hpostmem : post ∈ db.posts := List.mem_of_find?_eq_some hfp
      have hpostid : post.id = pid := by
        have := List.find?_some hfp
        simpa using this
      have hkey := List.find?_some hfl
      have hlpid : lrow.postId = pid := by
        simp [likeKeyMatch] at hkey
        exact hkey.2
      have hmem : lrow ∈ db.likes := List.mem_of_find?_eq_some hfl
      obtain ⟨hp1, _⟩ := h post hpostmem
      have hcountpos : 0 < countLikeRows db.likes pid := by
        simp only [countLikeRows, List.countP_pos_iff]
        exact ⟨lrow, hmem, by simp [hlpid]⟩
      have hcond : post.likeCount > 0 := by
        rw [hp1, hpostid]
        exact_mod_cast hcountpos
      intro q hq
      simp only [List.mem_map] at hq
      obtain ⟨r, hr, rfl⟩ := hq
      obtain ⟨h1, h2⟩ := h r hr
      have herase := countP_eraseP_of_find? (likeKeyMatch u pid)
        (fun l => l.postId == r.id) db.likes lrow hfl
      by_cases hid : r.id = pid
      · subst hid
        simp only [beq_self_eq_true, if_true, if_pos hcond]
        refine ⟨?_, by simpa using h2⟩
        simp only [hlpid, beq_self_eq_true, if_true] at herase
        simp only [countLikeRows] at h1 hcountpos ⊢
        omega
      · have hb : (r.id == pid) = false := by simpa using hid
        simp only [hb, Bool.false_eq_true, if_false]
        refine ⟨?_, h2⟩
        have hb2 : (lrow.postId == r.id) = false := by
          simp [hlpid]
          omega
        simp only [hb2, Bool.false_eq_true, if_false, add_zero] at herase
        simp only [countLikeRows] at h1 ⊢
        rw [herase]
        exact h1

/-- Step preservation: `POST /posts/:id/comments` keeps the counters
consistent — the handler recomputes `commentCount` as an exact count. -/
theorem countersConsistent_createComment (u pid : Nat) (t : String) (db : DB)
    (h : CountersConsistent db) :
    CountersConsistent (createComment u pid t true db).2 := by
  unfold createComment
  cases hfp : findPost db pid with
  | none => exact h
  | some post =>
    intro q hq
    simp only [safeSetPostCommentCount, if_true, List.mem_map] at hq
    obtain ⟨r, hr, rfl⟩ := hq
    obtain ⟨h1, h2⟩ := h r hr
    by_cases hid : r.id = pid
    · subst hid
      constructor
      · simp only [beq_self_eq_true, if_true]
        simpa using h1
      · simp
    · have hb : (r.id == pid) = false := by simpa using hid
      simp only [hb, Bool.false_eq_true, if_false]
      refine ⟨h1, ?_⟩
      have hb2 : (pid == r.id) = false := by
        simp
        omega
      simp only [countCommentRows, List.countP_append, List.countP_cons,
        List.countP_nil, hb2, Bool.false_eq_true, if_false] at h2 ⊢
      simpa using h2

/-- Step preservation: `DELETE /comments/:id` keeps the counters
consistent — after the owner check the handler recomputes `commentCount`. -/
theorem countersConsistent_deleteComment (u cid : Nat) (db : DB)
    (h : CountersConsistent db) :
    CountersConsistent (deleteComment u cid true db).2 := by
  unfold deleteComment
  cases hfc : db.comments.find? (fun c => c.id == cid) with
  | none => exact h
  | some comment =>
    by_cases hown : comment.userId != u
    · simp only [if_pos hown]
      exact h
    · simp only [if_neg hown]
      intro q hq
      simp only [safeSetPostCommentCount, if_true, List.mem_map] at hq
      obtain ⟨r, hr, rfl⟩ := hq
      obtain ⟨h1, h2⟩ := h r hr
      have herase := countP_eraseP_of_find? (fun c => c.id == cid)
        (fun c => c.postId == r.id) db.comments comment hfc
      by_cases hid : r.id = comment.postId
      · have hb : (r.id == comment.postId) = true := by simpa using hid
        constructor
        · simp only [hb, if_true]
          simpa using h1
        · simp only [hb, if_true]
          simp [hid]
      · have hb : (r.id == comment.postId) = false := by simpa using hid
        simp only [hb, Bool.false_eq_true, if_false]
        refine ⟨h1, ?_⟩
        have hb2 : (comment.postId == r.id) = false := by
          simp
          omega
        simp only [hb2, Bool.false_eq_true, if_false, add_zero] at herase
        simp only [countCommentRows] at h2 ⊢
        rw [herase]
        exact h2

/-- Step preservation for an arbitrary edge-mutating request. -/
theorem countersConsistent_applyOp (db : DB) (op : SocialOp)
    (h : CountersConsistent db) : CountersConsistent (applyOp db op) := by
  cases op with
  | doLike u p => exact countersConsistent_likePost u p db h
  | doUnlike u p => exact countersConsistent_unlikePost u p db h
  | doComment u p t => exact countersConsistent_createComment u p t db h
  | doUncomment u c => exact countersConsistent_deleteComment u c db h

/-- The invariant survives any request sequence. -/
theorem countersConsistent_applyOps (ops : List SocialOp) (db : DB)
    (h : CountersConsistent db) : CountersConsistent (applyOps db ops) := by
  induction ops generalizing db with
  | nil => exact h
  | cons op ops ih =>
    rw [applyOps, List.foldl_cons]
    exact ih _ (countersConsistent_applyOp db op h)

/-- **C1** Counter consistency invariant: starting from a database whose
stored `likeCount`/`commentCount` equal the respective `Like`/`Comment` row
counts, any sequence of like/unlike/comment-create/comment-delete requests
by any users preserves that equality, and both stored counters stay
non-negative. -/
theorem counter_consistency_invariant (db : DB) (ops : List SocialOp)
    (h : CountersConsistent db) :
    CountersConsistent (applyOps db ops) ∧
      ∀ p ∈ (applyOps db ops).posts, 0 ≤ p.likeCount ∧ 0 ≤ p.commentCount := by
  have main := countersConsistent_applyOps ops db h
  refine ⟨main, fun p hp => ?_⟩
  obtain ⟨h1, h2⟩ := main p hp
  rw [h1, h2]
  exact ⟨Int.natCast_nonneg _, Int.natCast_nonneg _⟩

/-- A concrete two-user, one-post database used by witnesses. -/
def dbW1 : DB :=
  ⟨[⟨1, "alice", "Alice", none, none, "alice@example.com", none⟩,
    ⟨2, "bob", "Bob", none, none, "bob@example.com", none⟩],
   [⟨1, 1, "img", none, 10, 0, 0⟩],
   [], [], [], 1, 99⟩

/-- Witness for C1: a concrete consistent database and request sequence. -/
theorem counter_consistency_invariant_witness :
    CountersConsistent dbW1 ∧
      (CountersConsistent (applyOps dbW1
          [.doLike 2 1, .doComment 2 1 "hi", .doUnlike 2 1, .doUncomment 2 1]) ∧
        ∀ p ∈ (applyOps dbW1
            [.doLike 2 1, .doComment 2 1 "hi", .doUnlike 2 1,
              .doUncomment 2 1]).posts,
          0 ≤ p.likeCount ∧ 0 ≤ p.commentCount) :=
  ⟨by decide, counter_consistency_invariant dbW1
    [.doLike 2 1, .doComment 2 1 "hi", .doUnlike 2 1, .doUncomment 2 1]
    (by decide)⟩

/-- `find?` commutes with mapping a function that leaves the tested
predicate unchanged. -/
theorem find?_map_stable {α : Type} (f : α → α) (P : α → Bool)
    (hP : ∀ a, P (f a) = P a) (l : List α) :
    (l.map f).find? P = (l.find? P).map f := by
  induction l with
  | nil => rfl
  | cons x xs ih =>
    by_cases hx : P x
    · rw [List.map_cons, List.find?_cons_of_pos _ (by rw [hP]; exact hx),
        List.find?_cons_of_pos _ hx, Option.map_some']
    · rw [List.map_cons, List.find?_cons_of_neg _ (by rw [hP]; simpa using hx),
        List.find?_cons_of_neg _ (by simpa using hx), ih]

/-- Updating only `likeCount` of the rows with a given id leaves every
row's id in place. -/
theorem postSet_id_stable (pid : Nat) (g : PostRow → Int) :
    ∀ q : PostRow,
      ((if q.id == pid then { q with likeCount := g q } else q).id == pid)
        = (q.id == pid) := by
  intro q
  by_cases hq : q.id == pid <;> simp [hq]

/-- **C2** `like(userId, postId)`: a missing post fails with 404 "Post not
found" and changes nothing; an existing edge answers "Already liked" with
the current `likeCount` and changes nothing; otherwise the edge is inserted
and the post's `likeCount` is incremented by exactly 1, the new counter
value being returned, with every other table and every other post row
untouched. -/
theorem like_spec (u pid : Nat) (db : DB) :
    (findPost db pid = none →
      likePost u pid db = (.err ⟨"Post not found", 404⟩, db)) ∧
    (∀ post lrow, findPost db pid = some post → findLike db u pid = some lrow →
      likePost u pid db = (.ok ⟨true, post.likeCount⟩ "Already liked", db)) ∧
    (∀ post, findPost db pid = some post → findLike db u pid = none →
      (likePost u pid db).1 = .ok ⟨true, post.likeCount + 1⟩ "Liked" ∧
      (likePost u pid db).2.likes = db.likes ++ [⟨u, pid, db.now⟩] ∧
      findPost (likePost u pid db).2 pid =
        some { post with likeCount := post.likeCount + 1 } ∧
      (∀ q ∈ db.posts, (q.id == pid) = false → q ∈ (likePost u pid db).2.posts) ∧
      (likePost u pid db).2.comments = db.comments ∧
      (likePost u pid db).2.follows = db.follows ∧
      (likePost u pid db).2.users = db.users) := by
  refine ⟨fun h0 => ?_, fun post lrow h1 h2 => ?_, fun post h1 h2 => ?_⟩
  · unfold likePost
    rw [h0]
  · unfold likePost
    rw [h1, h2]
  · unfold likePost
    rw [h1, h2]
    refine ⟨rfl, rfl, ?_, fun q hq hqid => ?_, rfl, rfl, rfl⟩
    · show (db.posts.map _).find? _ = _
      rw [find?_map_stable _ _ (postSet_id_stable pid (fun q => q.likeCount + 1))]
      have h1' : List.find? (fun p => p.id == pid) db.posts = some post := h1
      rw [h1', Option.map_some']
      have hpid : (post.id == pid) = true := by
        have h3 := List.find?_some h1'
        simpa using h3
      simp [hpid]
    · show q ∈ db.posts.map _
      have := List.mem_map_of_mem
        (fun q : PostRow =>
          if q.id == pid then { q with likeCount := q.likeCount + 1 } else q) hq
      simpa [hqid] using this

/-- The post row of `dbW1`. -/
def postW1 : PostRow := ⟨1, 1, "img", none, 10, 0, 0⟩

/-- Witness for C2: liking post 1 as user 2 on `dbW1` inserts the edge and
bumps the counter from 0 to 1. -/
theorem like_spec_witness :
    findPost dbW1 1 = some postW1 ∧ findLike dbW1 2 1 = none ∧
      ((likePost 2 1 dbW1).1 = .ok ⟨true, postW1.likeCount + 1⟩ "Liked" ∧
        (likePost 2 1 dbW1).2.likes = dbW1.likes ++ [⟨2, 1, dbW1.now⟩] ∧
        findPost (likePost 2 1 dbW1).2 1 =
          some { postW1 with likeCount := postW1.likeCount + 1 } ∧
        (∀ q ∈ dbW1.posts, (q.id == 1) = false →
          q ∈ (likePost 2 1 dbW1).2.posts) ∧
        (likePost 2 1 dbW1).2.comments = dbW1.comments ∧
        (likePost 2 1 dbW1).2.follows = dbW1.follows ∧
        (likePost 2 1 dbW1).2.users = dbW1.users) :=
  ⟨by decide, by decide, (like_spec 2 1 dbW1).2.2 postW1 (by decide) (by decide)⟩

/-- **C3** `unlike(userId, postId)`: a missing post fails with 404 and
changes nothing; a missing edge answers "Already unliked" with the current
counter and changes nothing; otherwise the edge is deleted and the stored
counter becomes `max (likeCount - 1) 0` — the guarded decrement never
drives it below zero, even when the edge existed while the counter was
already 0 — and with unique post ids no stored counter is ever made
negative. -/
theorem unlike_spec (u pid : Nat) (db : DB) :
    (findPost db pid = none →
      unlikePost u pid db = (.err ⟨"Post not found", 404⟩, db)) ∧
    (∀ post, findPost db pid = some post → findLike db u pid = none →
      unlikePost u pid db = (.ok ⟨false, post.likeCount⟩ "Already unliked", db)) ∧
    (∀ post lrow, findPost db pid = some post → findLike db u pid = some lrow →
      0 ≤ post.likeCount →
      (unlikePost u pid db).1 =
        .ok ⟨false, max (post.likeCount - 1) 0⟩ "Unliked" ∧
      (unlikePost u pid db).2.likes = db.likes.eraseP (likeKeyMatch u pid) ∧
      findPost (unlikePost u pid db).2 pid =
        some { post with likeCount := max (post.likeCount - 1) 0 } ∧
      (∀ q ∈ db.posts, (q.id == pid) = false →
        q ∈ (unlikePost u pid db).2.posts) ∧
      (unlikePost u pid db).2.comments = db.comments) ∧
    ((db.posts.map (fun p => p.id)).Nodup → (∀ q ∈ db.posts, 0 ≤ q.likeCount) →
      ∀ q ∈ (unlikePost u pid db).2.posts, 0 ≤ q.likeCount) := by
  refine ⟨fun h0 => ?_, fun post h1 h2 => ?_, fun post lrow h1 h2 h3 => ?_,
    fun hnd hpos => ?_⟩
  · unfold unlikePost
    rw [h0]
  · unfold unlikePost
    rw [h1, h2]
  · unfold unlikePost
    rw [h1, h2]
    have h1' : List.find? (fun p => p.id == pid) db.posts = some post := h1
    have hpid : (post.id == pid) = true := by
      have h4 := List.find?_some h1'
      simpa using h4
    have hval : (if post.likeCount > 0 then post.likeCount - 1
        else post.likeCount) = max (post.likeCount - 1) 0 := by
      split <;> omega
    refine ⟨?_, rfl, ?_, fun q hq hqid => ?_, rfl⟩
    · simp only [hval]
    · show (db.posts.map _).find? _ = _
      rw [find?_map_stable _ _ (postSet_id_stable pid
        (fun q => if post.likeCount > 0 then q.likeCount - 1 else q.likeCount))]
      rw [h1', Option.map_some']
      simp only [hpid, if_true]
      rw [hval]
    · show q ∈ db.posts.map _
      have h5 := List.mem_map_of_mem
        (fun q : PostRow =>
          if q.id == pid then
            { q with likeCount :=
                if post.likeCount > 0 then q.likeCount - 1 else q.likeCount }
          else q) hq
      simpa [hqid] using h5
  · unfold unlikePost
    cases h1 : findPost db pid with
    | none => exact hpos
    | some post =>
      cases h2 : findLike db u pid with
      | none => exact hpos
      | some lrow =>
        intro q hq
        simp only [List.mem_map] at hq
        obtain ⟨r, hr, rfl⟩ := hq
        by_cases hrid : (r.id == pid) = true
        · simp only [hrid, if_true]
          by_cases hc : post.likeCount > 0
          · simp only [hc, if_true]
            have h1' : List.find? (fun p => p.id == pid) db.posts = some post := h1
            have hmem : post ∈ db.posts := List.mem_of_find?_eq_some h1'
            have hpid : (post.id == pid) = true := by
              have h4 := List.find?_some h1'
              simpa using h4
            have hrp : r = post := by
              apply List.inj_on_of_nodup_map hnd hr hmem
              have e1 : r.id = pid := by simpa using hrid
              have e2 : post.id = pid := by simpa using hpid
              simp [e1, e2]
            rw [hrp]
            omega
          · simp only [hc, if_false]
            exact hpos r hr
        · simp only [hrid, if_false]
          exact hpos r hr

/-- A drifted database: the Like edge (2, 1) exists while post 1's stored
counter is already 0. -/
def dbW2 : DB :=
  ⟨[⟨1, "alice", "Alice", none, none, "alice@example.com", none⟩,
    ⟨2, "bob", "Bob", none, none, "bob@example.com", none⟩],
   [⟨1, 1, "img", none, 10, 0, 0⟩],
   [⟨2, 1, 5⟩], [], [], 1, 99⟩

/-- Witness for C3: unliking on the drifted `dbW2` removes the edge and
leaves the counter clamped at 0. -/
theorem unlike_spec_witness :
    findPost dbW2 1 = some postW1 ∧ findLike dbW2 2 1 = some ⟨2, 1, 5⟩ ∧
      0 ≤ postW1.likeCount ∧
      ((unlikePost 2 1 dbW2).1 =
          .ok ⟨false, max (postW1.likeCount - 1) 0⟩ "Unliked" ∧
        (unlikePost 2 1 dbW2).2.likes = dbW2.likes.eraseP (likeKeyMatch 2 1) ∧
        findPost (unlikePost 2 1 dbW2).2 1 =
          some { postW1 with likeCount := max (postW1.likeCount - 1) 0 } ∧
        (∀ q ∈ dbW2.posts, (q.id == 1) = false →
          q ∈ (unlikePost 2 1 dbW2).2.posts) ∧
        (unlikePost 2 1 dbW2).2.comments = dbW2.comments) :=
  ⟨by decide, by decide, by decide,
    (unlike_spec 2 1 dbW2).2.2.1 postW1 ⟨2, 1, 5⟩ (by decide) (by decide)
      (by decide)⟩

/-- **C4** Self-follow rejection: when the target username resolves to the
acting user itself, `POST /follow/:username` fails with 400
"You cannot follow yourself" and leaves the database — in particular the
Follow edge set — unchanged. -/
theorem self_follow_rejected (db : DB) (username : String) (a : Nat)
    (u : UserRow) (hu : findUserByUsername db username = some u)
    (hid : u.id = a) :
    followUser a username db = (.err ⟨"You cannot follow yourself", 400⟩, db) := by
  unfold followUser
  rw [hu]
  have hb : (u.id == a) = true := by simpa using hid
  simp [hb]

/-- The user row of `dbW1` reachable by username "alice". -/
def aliceW : UserRow := ⟨1, "alice", "Alice", none, none, "alice@example.com", none⟩

/-- Witness for C4: user 1 trying to follow "alice" (their own username). -/
theorem self_follow_rejected_witness :
    findUserByUsername dbW1 "alice" = some aliceW ∧ aliceW.id = 1 ∧
      followUser 1 "alice" dbW1 =
        (.err ⟨"You cannot follow yourself", 400⟩, dbW1) :=
  ⟨by decide, by decide,
    self_follow_rejected dbW1 "alice" 1 aliceW (by decide) (by decide)⟩

/-- Erasing with a predicate that holds for at most one element is
idempotent. -/
theorem eraseP_idem_of_countP_le_one {α : Type} (P : α → Bool) (l : List α)
    (h : l.countP P ≤ 1) : (l.eraseP P).eraseP P = l.eraseP P := by
  have h0 : (l.eraseP P).countP P = 0 := by
    cases hf : l.find? P with
    | none =>
      have hnone : ∀ a ∈ l, ¬P a := by
        intro a ha
        simpa using List.find?_eq_none.mp hf a ha
      rw [List.eraseP_of_forall_not hnone]
      exact List.countP_eq_zero.mpr hnone
    | some a =>
      have h1 := countP_eraseP_of_find? P P l a hf
      have hPa : P a = true := by
        have h2 := List.find?_some hf
        simpa using h2
      rw [hPa] at h1
      simp at h1
      omega
  apply List.eraseP_of_forall_not
  exact List.countP_eq_zero.mp h0

/-- Resolving a username only reads the `users` table: replacing the
`follows` table does not change the result. -/
theorem findUser_follows_irrel (db : DB) (F : List FollowRow) (username : String) :
    findUserByUsername { db with follows := F } username =
      findUserByUsername db username := rfl

/-- **C5** Follow/unfollow idempotence: for a target distinct from the
actor, `followUser` answers `{following: true}` whether or not the edge
pre-exists and a second application changes nothing and answers the same;
`unfollowUser` answers `{following: false}` whether or not the edge exists
(absence is not an error) and — the edge being unique per ordered pair — a
second application changes nothing and answers the same. -/
theorem follow_unfollow_idempotent (db : DB) (username : String) (a : Nat)
    (target : UserRow) (hu : findUserByUsername db username = some target)
    (hne : target.id ≠ a)
    (huniq : db.follows.countP (followKeyMatch a target.id) ≤ 1) :
    ((followUser a username db).1 = .ok ⟨true⟩ "Now following" ∧
      followUser a username (followUser a username db).2 =
        (.ok ⟨true⟩ "Now following", (followUser a username db).2)) ∧
    ((unfollowUser a username db).1 = .ok ⟨false⟩ "Unfollowed" ∧
      unfollowUser a username (unfollowUser a username db).2 =
        (.ok ⟨false⟩ "Unfollowed", (unfollowUser a username db).2)) := by
  have hne2 : (target.id == a) = false := by simpa using hne
  have hkey : followKeyMatch a target.id ⟨a, target.id, db.now⟩ = true := by
    simp [followKeyMatch]
  refine ⟨⟨?_, ?_⟩, ?_, ?_⟩
  · unfold followUser
    rw [hu]
    simp only [hne2, Bool.false_eq_true, if_false]
  · by_cases hb : db.follows.any (followKeyMatch a target.id)
    · have hdb1 : (followUser a username db).2 = db := by
        unfold followUser
        rw [hu]
        simp [hne2, hb]
      rw [hdb1]
      unfold followUser
      rw [hu]
      simp [hne2, hb]
    · have hb2 : db.follows.any (followKeyMatch a target.id) = false := by
        simpa using hb
      have hdb1 : (followUser a username db).2 =
          { db with follows := db.follows ++ [FollowRow.mk a target.id db.now] } := by
        unfold followUser
        rw [hu]
        simp [hne2, hb2]
      rw [hdb1]
      unfold followUser
      rw [findUser_follows_irrel, hu]
      have hany2 : (db.follows ++ [FollowRow.mk a target.id db.now]).any
          (followKeyMatch a target.id) = true := by
        simp [hkey]
      simp [hne2, hany2]
  · unfold unfollowUser
    rw [hu]
  · have hdb1 : (unfollowUser a username db).2 =
        { db with follows := db.follows.eraseP (followKeyMatch a target.id) } := by
      unfold unfollowUser
      rw [hu]
    rw [hdb1]
    unfold unfollowUser
    rw [findUser_follows_irrel, hu]
    have hi := eraseP_idem_of_countP_le_one
      (followKeyMatch a target.id) db.follows huniq
    simp [hi]

/-- Witness for C5: user 2 and "alice" (user 1) on `dbW1`. -/
theorem follow_unfollow_idempotent_witness :
    findUserByUsername dbW1 "alice" = some aliceW ∧ aliceW.id ≠ 2 ∧
      dbW1.follows.countP (followKeyMatch 2 aliceW.id) ≤ 1 ∧
      (((followUser 2 "alice" dbW1).1 = .ok ⟨true⟩ "Now following" ∧
          followUser 2 "alice" (followUser 2 "alice" dbW1).2 =
            (.ok ⟨true⟩ "Now following", (followUser 2 "alice" dbW1).2)) ∧
        ((unfollowUser 2 "alice" dbW1).1 = .ok ⟨false⟩ "Unfollowed" ∧
          unfollowUser 2 "alice" (unfollowUser 2 "alice" dbW1).2 =
            (.ok ⟨false⟩ "Unfollowed", (unfollowUser 2 "alice" dbW1).2))) :=
  ⟨by decide, by decide, by decide,
    follow_unfollow_idempotent dbW1 "alice" 2 aliceW (by decide) (by decide)
      (by decide)⟩

/-- **C6** Comment creation (post verified to exist) and deletion (owner
verified) each insert/delete the comment row and then set the parent post's
`commentCount` to the exact count of the remaining comment rows — a
recompute, not an increment — while a failing counter write
(`counterOk = false`) is swallowed: the operation still succeeds and still
performs the row mutation, only the posts table is left untouched. -/
theorem comment_count_recompute (u pid cid : Nat) (t : String) (db : DB) :
    (∀ post, findPost db pid = some post → ∀ counterOk,
      (createComment u pid t counterOk db).1 =
        .ok ⟨db.nextCommentId, t⟩ "Comment created" ∧
      (createComment u pid t counterOk db).2.comments =
        db.comments ++ [⟨db.nextCommentId, pid, u, t, db.now⟩] ∧
      (counterOk = false →
        (createComment u pid t counterOk db).2.posts = db.posts) ∧
      (counterOk = true →
        ∀ q ∈ (createComment u pid t counterOk db).2.posts,
          (q.id == pid) = true →
          q.commentCount =
            (countCommentRows (createComment u pid t counterOk db).2.comments
              pid : Int))) ∧
    (∀ comment, db.comments.find? (fun c => c.id == cid) = some comment →
      comment.userId = u → ∀ counterOk,
      (deleteComment u cid counterOk db).1 = .ok ⟨true⟩ "Comment deleted" ∧
      (deleteComment u cid counterOk db).2.comments =
        db.comments.eraseP (fun c => c.id == cid) ∧
      (counterOk = false →
        (deleteComment u cid counterOk db).2.posts = db.posts) ∧
      (counterOk = true →
        ∀ q ∈ (deleteComment u cid counterOk db).2.posts,
          (q.id == comment.postId) = true →
          q.commentCount =
            (countCommentRows (deleteComment u cid counterOk db).2.comments
              comment.postId : Int))) := by
  constructor
  · intro post hpost counterOk
    unfold createComment
    rw [hpost]
    refine ⟨rfl, rfl, fun hoff => ?_, fun hon q hq hqid => ?_⟩
    · subst hoff
      rfl
    · subst hon
      simp only [safeSetPostCommentCount, if_true, List.mem_map] at hq
      obtain ⟨r, hr, rfl⟩ := hq
      by_cases hb : (r.id == pid) = true
      · simp [hb]
      · simp only [hb, Bool.false_eq_true, if_false] at hqid
  · intro comment hfc hown counterOk
    unfold deleteComment
    rw [hfc]
    have hown2 : (comment.userId != u) = false := by simp [hown]
    simp only [hown2, Bool.false_eq_true, if_false]
    refine ⟨by trivial, by trivial, fun hoff => ?_, fun hon q hq hqid => ?_⟩
    · subst hoff
      rfl
    · subst hon
      simp only [safeSetPostCommentCount, if_true, List.mem_map] at hq
      obtain ⟨r, hr, rfl⟩ := hq
      by_cases hb : (r.id == comment.postId) = true
      · simp [hb]
      · simp only [hb, Bool.false_eq_true, if_false] at hqid

/-- The post row of `dbW3`. -/
def pW3 : PostRow := ⟨1, 1, "img", none, 10, 0, 1⟩

/-- A database with one post and one existing comment on it. -/
def dbW3 : DB :=
  ⟨[aliceW, ⟨2, "bob", "Bob", none, none, "bob@example.com", none⟩],
   [pW3], [], [⟨1, 1, 2, "hi", 11⟩], [], 2, 99⟩

/-- Witness for C6: creating a comment on `dbW3` recomputes the counter. -/
theorem comment_count_recompute_witness :
    findPost dbW3 1 = some pW3 ∧
      ((createComment 2 1 "yo" true dbW3).1 =
          .ok ⟨dbW3.nextCommentId, "yo"⟩ "Comment created" ∧
        (createComment 2 1 "yo" true dbW3).2.comments =
          dbW3.comments ++ [⟨dbW3.nextCommentId, 1, 2, "yo", dbW3.now⟩] ∧
        (true = false → (createComment 2 1 "yo" true dbW3).2.posts = dbW3.posts) ∧
        (true = true → ∀ q ∈ (createComment 2 1 "yo" true dbW3).2.posts,
          (q.id == 1) = true →
          q.commentCount =
            (countCommentRows (createComment 2 1 "yo" true dbW3).2.comments
              1 : Int))) :=
  ⟨by decide, (comment_count_recompute 2 1 0 "yo" dbW3).1 pW3 (by decide) true⟩

instance : IsTotal PostRow (fun a b => b.createdAt ≤ a.createdAt) :=
  ⟨fun a b => Nat.le_total b.createdAt a.createdAt⟩

instance : IsTrans PostRow (fun a b => b.createdAt ≤ a.createdAt) :=
  ⟨fun _ _ _ hab hbc => Nat.le_trans hbc hab⟩

/-- The sort of the feed query is sorted by `createdAt` descending. -/
theorem sorted_postsByCreatedAtDesc (ps : List PostRow) :
    List.Sorted (fun a b => b.createdAt ≤ a.createdAt)
      (postsByCreatedAtDesc ps) :=
  List.sorted_insertionSort _ ps

/-- The sort of the feed query keeps exactly the input rows. -/
theorem perm_postsByCreatedAtDesc (ps : List PostRow) :
    (postsByCreatedAtDesc ps).Perm ps :=
  List.perm_insertionSort _ ps

/-- **C7** Feed correctness: `GET /feed` succeeds for every viewer — its
total counts exactly the posts authored by the viewer or a followee, every
returned item is authored by the viewer or a followee and is annotated
`likedByMe` iff the viewer holds a Like edge on it, items come ordered by
creation time descending and paginated by `(page-1)*limit`/`limit`, the
first page holds every candidate post when it fits, and a viewer who
follows nobody gets exactly their own posts, never an error. -/
theorem feed_spec (meId page limit : Nat) (db : DB) :
    ((getFeed meId page limit db).pagination.total =
      db.posts.countP (fun p => (feedCandidateIds meId db).contains p.userId)) ∧
    (∀ it ∈ (getFeed meId page limit db).items,
      (it.authorId = meId ∨ ∃ f ∈ db.follows,
        f.followerId = meId ∧ f.followingId = it.authorId) ∧
      (it.likedByMe = true ↔
        ∃ l ∈ db.likes, l.userId = meId ∧ l.postId = it.id)) ∧
    List.Sorted (fun a b => b.createdAt ≤ a.createdAt)
      (getFeed meId page limit db).items ∧
    ((getFeed meId page limit db).items.length =
      min limit ((getFeed meId page limit db).pagination.total -
        (page - 1) * limit)) ∧
    (page = 1 → (getFeed meId page limit db).pagination.total ≤ limit →
      ∀ p ∈ db.posts, (feedCandidateIds meId db).contains p.userId = true →
        ∃ it ∈ (getFeed meId page limit db).items,
          it.id = p.id ∧ it.authorId = p.userId ∧ it.createdAt = p.createdAt) ∧
    (db.follows.filter (fun f => f.followerId == meId) = [] →
      ∀ it ∈ (getFeed meId page limit db).items, it.authorId = meId) := by
  have hlen : (postsByCreatedAtDesc (db.posts.filter
      (fun p => (feedCandidateIds meId db).contains p.userId))).length =
      db.posts.countP (fun p => (feedCandidateIds meId db).contains p.userId) := by
    rw [(perm_postsByCreatedAtDesc _).length_eq, List.countP_eq_length_filter]
  refine ⟨hlen, fun it hit => ?_, ?_, ?_, fun hpage htot p hp hcand => ?_,
    fun hnone it hit => ?_⟩
  · simp only [getFeed, paginate, List.mem_map] at hit
    obtain ⟨p, hp, rfl⟩ := hit
    have hp2 : p ∈ db.posts.filter
        (fun q => (feedCandidateIds meId db).contains q.userId) :=
      (perm_postsByCreatedAtDesc _).mem_iff.mp
        (List.mem_of_mem_drop (List.mem_of_mem_take hp))
    rw [List.mem_filter] at hp2
    constructor
    · have hc : p.userId ∈ feedCandidateIds meId db := List.elem_iff.mp hp2.2
      simp only [feedCandidateIds, List.mem_cons, List.mem_map,
        List.mem_filter] at hc
      rcases hc with hc | ⟨f, ⟨hf, hfm⟩, hfi⟩
      · exact Or.inl hc
      · exact Or.inr ⟨f, hf, by simpa using hfm, hfi⟩
    · simp only [List.any_eq_true, Bool.and_eq_true, beq_iff_eq]
  · simp only [getFeed, paginate]
    exact List.Pairwise.map _ (fun a b hab => hab)
      (List.Pairwise.take (List.Pairwise.drop (sorted_postsByCreatedAtDesc _)))
  · simp only [getFeed, paginate, List.length_map, List.length_take,
      List.length_drop]
  · subst hpage
    have hfull : p ∈ postsByCreatedAtDesc (db.posts.filter
        (fun q => (feedCandidateIds meId db).contains q.userId)) :=
      (perm_postsByCreatedAtDesc _).mem_iff.mpr
        (List.mem_filter.mpr ⟨hp, hcand⟩)
    simp only [getFeed, paginate] at htot ⊢
    rw [hlen] at htot
    simp only [Nat.sub_self, Nat.zero_mul, List.drop_zero] at hfull ⊢
    rw [List.take_of_length_le (by rw [hlen]; exact htot)]
    exact ⟨_, List.mem_map_of_mem _ hfull, rfl, rfl, rfl⟩
  · simp only [getFeed, paginate, List.mem_map] at hit
    obtain ⟨p, hp, rfl⟩ := hit
    have hp2 : p ∈ db.posts.filter
        (fun q => (feedCandidateIds meId db).contains q.userId) :=
      (perm_postsByCreatedAtDesc _).mem_iff.mp
        (List.mem_of_mem_drop (List.mem_of_mem_take hp))
    rw [List.mem_filter] at hp2
    have hc : p.userId ∈ feedCandidateIds meId db := List.elem_iff.mp hp2.2
    simp only [feedCandidateIds, hnone, List.map_nil, List.mem_cons,
      List.not_mem_nil, or_false] at hc
    exact hc

/-- A database where bob (2) follows alice (1), both have a post, and bob
likes alice's post. -/
def dbW4 : DB :=
  ⟨[aliceW, ⟨2, "bob", "Bob", none, none, "bob@example.com", none⟩],
   [⟨1, 1, "p1", none, 10, 0, 0⟩, ⟨2, 2, "p2", none, 20, 0, 0⟩],
   [⟨2, 1, 30⟩], [], [⟨2, 1, 40⟩], 1, 99⟩

/-- Witness for C7: bob's feed on `dbW4` contains alice's post. -/
theorem feed_spec_witness :
    (1 : Nat) = 1 ∧ (getFeed 2 1 20 dbW4).pagination.total ≤ 20 ∧
      (⟨1, 1, "p1", none, 10, 0, 0⟩ : PostRow) ∈ dbW4.posts ∧
      (feedCandidateIds 2 dbW4).contains 1 = true ∧
      ∃ it ∈ (getFeed 2 1 20 dbW4).items,
        it.id = 1 ∧ it.authorId = 1 ∧ it.createdAt = 10 :=
  ⟨rfl, by decide, by decide, by decide,
    (feed_spec 2 1 20 dbW4).2.2.2.2.1 rfl (by decide)
      ⟨1, 1, "p1", none, 10, 0, 0⟩ (by decide) (by decide)⟩

/-- Beyond the last page the shared pagination pattern yields an empty page
while still reporting the full totals. -/
theorem paginate_beyond {α : Type} (page limit : Nat) (xs : List α)
    (h : xs.length ≤ (page - 1) * limit) :
    paginate page limit xs =
      ([], ⟨page, limit, xs.length, (xs.length + limit - 1) / limit⟩) := by
  unfold paginate
  rw [List.drop_eq_nil_of_le h, List.take_nil]

/-- Sorting follow rows keeps the length. -/
theorem length_followsByCreatedAtDesc (fs : List FollowRow) :
    (followsByCreatedAtDesc fs).length = fs.length :=
  (List.perm_insertionSort _ fs).length_eq

/-- Sorting like rows keeps the length. -/
theorem length_likesByCreatedAtDesc (ls : List LikeRow) :
    (likesByCreatedAtDesc ls).length = ls.length :=
  (List.perm_insertionSort _ ls).length_eq

/-- Sorting comment rows keeps the length. -/
theorem length_commentsByCreatedAtDesc (cs : List CommentRow) :
    (commentsByCreatedAtDesc cs).length = cs.length :=
  (List.perm_insertionSort _ cs).length_eq

/-- Sorting user rows keeps the length. -/
theorem length_usersByUsernameAsc (us : List UserRow) :
    (usersByUsernameAsc us).length = us.length :=
  (List.perm_insertionSort _ us).length_eq

/-- **C8** Pagination boundary: for the feed, followers, following, likers,
user-posts, comments and search listings, a page whose offset
`(page-1)*limit` is at or beyond the full result size still succeeds with an
empty item list, while `{page, limit, total, totalPages}` keeps reporting
the full result set with `totalPages = ceil(total/limit)`. -/
theorem pagination_boundary (viewerId : Option Nat) (meId postId page limit : Nat)
    (username q : String) (db : DB) :
    (db.posts.countP (fun p => (feedCandidateIds meId db).contains p.userId) ≤
        (page - 1) * limit →
      (getFeed meId page limit db).items = [] ∧
      (getFeed meId page limit db).pagination =
        ⟨page, limit,
          db.posts.countP (fun p => (feedCandidateIds meId db).contains p.userId),
          (db.posts.countP (fun p => (feedCandidateIds meId db).contains p.userId)
            + limit - 1) / limit⟩) ∧
    (∀ owner, findUserByUsername db username = some owner →
      db.follows.countP (fun f => f.followingId == owner.id) ≤ (page - 1) * limit →
      listFollowers viewerId username page limit db =
        .ok ⟨[], ⟨page, limit,
          db.follows.countP (fun f => f.followingId == owner.id),
          (db.follows.countP (fun f => f.followingId == owner.id) + limit - 1) /
            limit⟩⟩ "OK") ∧
    (∀ owner, findUserByUsername db username = some owner →
      db.follows.countP (fun f => f.followerId == owner.id) ≤ (page - 1) * limit →
      listFollowing viewerId username page limit db =
        .ok ⟨[], ⟨page, limit,
          db.follows.countP (fun f => f.followerId == owner.id),
          (db.follows.countP (fun f => f.followerId == owner.id) + limit - 1) /
            limit⟩⟩ "OK") ∧
    (∀ post, findPost db postId = some post →
      countLikeRows db.likes postId ≤ (page - 1) * limit →
      listPostLikers viewerId postId page limit db =
        .ok ⟨[], ⟨page, limit, countLikeRows db.likes postId,
          (countLikeRows db.likes postId + limit - 1) / limit⟩⟩ "OK") ∧
    (∀ owner, findUserByUsername db username = some owner →
      db.posts.countP (fun p => p.userId == owner.id) ≤ (page - 1) * limit →
      listUserPosts viewerId username page limit db =
        .ok ⟨[], ⟨page, limit, db.posts.countP (fun p => p.userId == owner.id),
          (db.posts.countP (fun p => p.userId == owner.id) + limit - 1) / limit⟩⟩
        "OK") ∧
    (countCommentRows db.comments postId ≤ (page - 1) * limit →
      (listPostComments postId page limit db).comments = [] ∧
      (listPostComments postId page limit db).pagination =
        ⟨page, limit, countCommentRows db.comments postId,
          (countCommentRows db.comments postId + limit - 1) / limit⟩) ∧
    (db.users.countP (searchMatch (normalizeQuery q)) ≤
        (page - 1) * min limit 50 →
      searchUsers viewerId q page limit db =
        .ok ⟨[], ⟨page, min limit 50,
          db.users.countP (searchMatch (normalizeQuery q)),
          (db.users.countP (searchMatch (normalizeQuery q)) + min limit 50 - 1) /
            min limit 50⟩⟩ "OK") := by
  refine ⟨fun h => ?_, fun owner howner h => ?_, fun owner howner h => ?_,
    fun post hpost h => ?_, fun owner howner h => ?_, fun h => ?_, fun h => ?_⟩
  · have hx : (postsByCreatedAtDesc (db.posts.filter
        (fun p => (feedCandidateIds meId db).contains p.userId))).length =
        db.posts.countP (fun p => (feedCandidateIds meId db).contains p.userId) := by
      rw [(perm_postsByCreatedAtDesc _).length_eq, ← List.countP_eq_length_filter]
    constructor
    · simp only [getFeed]
      rw [paginate_beyond page limit _ (by rw [hx]; exact h)]
      simp
    · simp only [getFeed]
      rw [paginate_beyond page limit _ (by rw [hx]; exact h)]
      simp only [hx]
  · have hx : (followsByCreatedAtDesc (db.follows.filter
        (fun f => f.followingId == owner.id))).length =
        db.follows.countP (fun f => f.followingId == owner.id) := by
      rw [length_followsByCreatedAtDesc, ← List.countP_eq_length_filter]
    simp only [listFollowers, howner]
    rw [paginate_beyond page limit _ (by rw [hx]; exact h)]
    simp [hx]
  · have hx : (followsByCreatedAtDesc (db.follows.filter
        (fun f => f.followerId == owner.id))).length =
        db.follows.countP (fun f => f.followerId == owner.id) := by
      rw [length_followsByCreatedAtDesc, ← List.countP_eq_length_filter]
    simp only [listFollowing, howner]
    rw [paginate_beyond page limit _ (by rw [hx]; exact h)]
    simp [hx]
  · have hx : (likesByCreatedAtDesc (db.likes.filter
        (fun l => l.postId == postId))).length =
        countLikeRows db.likes postId := by
      rw [length_likesByCreatedAtDesc, countLikeRows,
        ← List.countP_eq_length_filter]
    simp only [listPostLikers, hpost]
    rw [paginate_beyond page limit _ (by rw [hx]; exact h)]
    simp [hx]
  · have hx : (postsByCreatedAtDesc (db.posts.filter
        (fun p => p.userId == owner.id))).length =
        db.posts.countP (fun p => p.userId == owner.id) := by
      rw [(perm_postsByCreatedAtDesc _).length_eq, ← List.countP_eq_length_filter]
    simp only [listUserPosts, howner]
    rw [paginate_beyond page limit _ (by rw [hx]; exact h)]
    simp [hx]
  · have hx : (commentsByCreatedAtDesc (db.comments.filter
        (fun c => c.postId == postId))).length =
        countCommentRows db.comments postId := by
      rw [length_commentsByCreatedAtDesc, countCommentRows,
        ← List.countP_eq_length_filter]
    constructor
    · simp only [listPostComments]
      rw [paginate_beyond page limit _ (by rw [hx]; exact h)]
      simp
    · simp only [listPostComments]
      rw [paginate_beyond page limit _ (by rw [hx]; exact h)]
      simp [hx]
  · have hx : (usersByUsernameAsc (db.users.filter
        (searchMatch (normalizeQuery q)))).length =
        db.users.countP (searchMatch (normalizeQuery q)) := by
      rw [length_usersByUsernameAsc, ← List.countP_eq_length_filter]
    simp only [searchUsers]
    rw [paginate_beyond page (min limit 50) _ (by rw [hx]; exact h)]
    simp [hx]

/-- Witness for C8: page 5 of bob's feed and of alice's followers on `dbW4`
are empty while the totals still report the full sets. -/
theorem pagination_boundary_witness :
    dbW4.posts.countP (fun p => (feedCandidateIds 2 dbW4).contains p.userId) ≤
        (5 - 1) * 20 ∧
      ((getFeed 2 5 20 dbW4).items = [] ∧
        (getFeed 2 5 20 dbW4).pagination =
          ⟨5, 20,
            dbW4.posts.countP
              (fun p => (feedCandidateIds 2 dbW4).contains p.userId),
            (dbW4.posts.countP
              (fun p => (feedCandidateIds 2 dbW4).contains p.userId)
              + 20 - 1) / 20⟩) ∧
      findUserByUsername dbW4 "alice" = some aliceW ∧
      dbW4.follows.countP (fun f => f.followingId == aliceW.id) ≤ (5 - 1) * 20 ∧
      listFollowers none "alice" 5 20 dbW4 =
        .ok ⟨[], ⟨5, 20,
          dbW4.follows.countP (fun f => f.followingId == aliceW.id),
          (dbW4.follows.countP (fun f => f.followingId == aliceW.id)
            + 20 - 1) / 20⟩⟩ "OK" :=
  ⟨by decide,
    (pagination_boundary none 2 1 5 20 "alice" "x" dbW4).1 (by decide),
    by decide, by decide,
    (pagination_boundary none 2 1 5 20 "alice" "x" dbW4).2.1 aliceW (by decide)
      (by decide)⟩

/-- **C9** Search never 404s: `GET /users/search` always succeeds; every
returned entry comes from a stored user whose username or display name
contains the normalized query case-insensitively; and when no user matches,
the result is the empty list with `total = 0` and `totalPages = 0`. -/
theorem search_never_404 (viewerId : Option Nat) (q : String) (page limit : Nat)
    (db : DB) :
    (∃ pay, searchUsers viewerId q page limit db = .ok pay "OK") ∧
    (∀ pay msg, searchUsers viewerId q page limit db = .ok pay msg →
      (∀ e ∈ pay.users, ∃ u ∈ db.users, u.id = e.id ∧ u.username = e.username ∧
        (strContainsCI u.username (normalizeQuery q) = true ∨
          strContainsCI u.name (normalizeQuery q) = true)) ∧
      ((∀ u ∈ db.users, searchMatch (normalizeQuery q) u = false) →
        pay.users = [] ∧ pay.pagination.total = 0 ∧
          pay.pagination.totalPages = 0)) := by
  constructor
  · exact ⟨_, rfl⟩
  · intro pay msg heq
    unfold searchUsers at heq
    injection heq with h1 h2
    subst h1
    constructor
    · intro e he
      simp only [paginate, List.mem_map] at he
      obtain ⟨u, hu, rfl⟩ := he
      have hu2 : u ∈ db.users.filter (searchMatch (normalizeQuery q)) :=
        (List.perm_insertionSort _ _).mem_iff.mp
          (List.mem_of_mem_drop (List.mem_of_mem_take hu))
      rw [List.mem_filter] at hu2
      refine ⟨u, hu2.1, rfl, rfl, ?_⟩
      have hm := hu2.2
      simpa [searchMatch, Bool.or_eq_true] using hm
    · intro hnm
      have hfil : db.users.filter (searchMatch (normalizeQuery q)) = [] := by
        apply List.filter_eq_nil_iff.mpr
        intro u hu
        simp [hnm u hu]
      simp only [paginate, hfil]
      have hs : usersByUsernameAsc [] = [] := rfl
      rw [hs]
      refine ⟨by simp, rfl, ?_⟩
      show (List.length [] + min limit 50 - 1) / min limit 50 = 0
      rcases Nat.eq_zero_or_pos (min limit 50) with hz | hp
      · rw [hz]
        simp
      · rw [List.length_nil]
        simp only [Nat.zero_add]
        exact Nat.div_eq_of_lt (by omega)

/-- Witness for C9: searching "zzz-no-such-user" on `dbW1` succeeds with
zero items and zeroed pagination metadata. -/
theorem search_never_404_witness :
    searchUsers none "zzz-no-such-user" 1 20 dbW1 =
        .ok ⟨[], ⟨1, 20, 0, 0⟩⟩ "OK" ∧
      (∀ u ∈ dbW1.users,
        searchMatch (normalizeQuery "zzz-no-such-user") u = false) ∧
      ((⟨[], ⟨1, 20, 0, 0⟩⟩ : SearchPayload).users = [] ∧
        (⟨[], ⟨1, 20, 0, 0⟩⟩ : SearchPayload).pagination.total = 0 ∧
        (⟨[], ⟨1, 20, 0, 0⟩⟩ : SearchPayload).pagination.totalPages = 0) :=
  ⟨by decide, by decide,
    ((search_never_404 none "zzz-no-such-user" 1 20 dbW1).2 ⟨[], ⟨1, 20, 0, 0⟩⟩
      "OK" (by decide)).2 (by decide)⟩

/-- **C10** Implicit: the public profile lookup by username, for every
viewer including the anonymous one (`viewerId = none`), succeeds on an
existing user and its payload carries the stored `email` and `phone` fields
verbatim. -/
theorem profile_exposes_contact (viewerId : Option Nat) (username : String)
    (db : DB) (u : UserRow) (hu : findUserByUsername db username = some u) :
    ∃ pay, getUserProfile viewerId username db = .ok pay "OK" ∧
      pay.email = u.email ∧ pay.phone = u.phone ∧ pay.id = u.id := by
  unfold getUserProfile
  rw [hu]
  exact ⟨_, rfl, rfl, rfl, rfl⟩

/-- Witness for C10: the anonymous view of "alice" on `dbW1` exposes her
email and phone. -/
theorem profile_exposes_contact_witness :
    findUserByUsername dbW1 "alice" = some aliceW ∧
      ∃ pay, getUserProfile none "alice" dbW1 = .ok pay "OK" ∧
        pay.email = aliceW.email ∧ pay.phone = aliceW.phone ∧
        pay.id = aliceW.id :=
  ⟨by decide, profile_exposes_contact none "alice" dbW1 aliceW (by decide)⟩




